import Mathlib

/-!
Verification development for the abb-bot repository: a shallow embedding of
the scraper strategy/factory (`src/scrapers/non_async.py`), the page-specific
extractors and external-service adapters (`scripts/scrape_abante2.py`,
`scripts/scrape_abante_cloudinary.py`, `scripts/fill_missing_data_abante.py`),
and the `Article` / `Website` value objects, together with theorems settling
the specification claims.

Strings are modelled as `List Char` where character-level reasoning is needed
and as `String` elsewhere.  Python exceptions are modelled with `Except`;
functions that catch every exception and return `None` are modelled as total
functions into `Option`.  Loops whose Python termination argument is a
shrinking scan position are written with an explicit fuel argument that is
initialised to the scanned list's length (the fuel never runs out for that
initialisation; lemmas below carry the `length ≤ fuel` invariant).
-/

/-- Python `str.isspace` / regex `\s` restricted to ASCII: the whitespace
characters relevant to the scraped text. -/
def isPySpace (c : Char) : Bool :=
  c = ' ' || c = '\t' || c = '\n' || c = '\r' || c = '\x0b' || c = '\x0c'

/-- Case-insensitive character comparison, as induced by `re.IGNORECASE`
(ASCII case folding). -/
def charCI (a b : Char) : Bool := a.toLower = b.toLower

/-- Does `s` start with `pat`, comparing characters case-insensitively? -/
def startsWithCI : List Char → List Char → Bool
  | [], _ => true
  | _ :: _, [] => false
  | p :: ps, c :: cs => charCI p c && startsWithCI ps cs

/-- Case-insensitively strip `pat` from the front of `s`, returning the
remainder on success. -/
def stripCIFront : List Char → List Char → Option (List Char)
  | [], s => some s
  | _ :: _, [] => none
  | p :: ps, c :: cs => if charCI p c then stripCIFront ps cs else none

/-- Does `l` contain `pat` as a substring, case-insensitively? -/
def hasSubCI (pat : List Char) : List Char → Bool
  | [] => startsWithCI pat []
  | c :: cs => startsWithCI pat (c :: cs) || hasSubCI pat cs

/-- Python `str.strip()`: drop leading and trailing whitespace. -/
def pyStrip (l : List Char) : List Char :=
  ((l.dropWhile isPySpace).reverse.dropWhile isPySpace).reverse

/-- Python `str.strip()` on `String` values. -/
def pyStripStr (s : String) : String := (pyStrip s.toList).asString

/-- No two consecutive newline characters occur in the list. -/
def noNN : List Char → Bool
  | [] => true
  | [_] => true
  | a :: b :: rest => !(a = '\n' && b = '\n') && noNN (b :: rest)

/-- Python exceptions raised (and in some callers caught) by this code base. -/
inductive PyError where
  | notImplementedError
  | fileNotFoundError
  | httpError (status : Nat)
  | requestError (msg : String)
  | validationError (msg : String)
  | parserError (msg : String)
  deriving DecidableEq

namespace Models

/-- Modelled from the spec: `models/website.py` and `models/article.py` are
not shipped in this repository snapshot (only their tests and callers are),
and the spec says the value objects perform "basic type/format validation"
of URL fields.  This predicate models pydantic's `HttpUrl` check: an
`http`/`https` scheme followed by a nonempty, whitespace-free host. -/
def isValidHttpUrl (s : String) : Bool :=
  let l := s.toList
  let afterScheme : Option (List Char) :=
    match stripCIFront "https://".toList l with
    | some r => some r
    | none => stripCIFront "http://".toList l
  match afterScheme with
  | none => false
  | some rest =>
      let host := rest.takeWhile (fun c => !(c = '/' || c = '?' || c = '#'))
      !host.isEmpty && l.all (fun c => !isPySpace c)

/-- Is `c` a hexadecimal digit? -/
def isHexDigit (c : Char) : Bool :=
  ('0' ≤ c && c ≤ '9') || ('a' ≤ c && c ≤ 'f') || ('A' ≤ c && c ≤ 'F')

/-- Modelled from the spec: canonical textual UUID validation used by the
`Article` model's `id` field (`8-4-4-4-12` hexadecimal digits separated by
hyphens), matching `uuid.UUID` acceptance of the canonical form. -/
def isValidUuid (s : String) : Bool :=
  match (s.toList.splitOn '-').map (fun g => (g.length, g.all isHexDigit)) with
  | [(8, true), (4, true), (4, true), (4, true), (12, true)] => true
  | _ => false

/-- Modelled from the spec: the `Website` value object "wraps and validates a
URL string". -/
structure Website where
  url : String
  deriving DecidableEq

/-- Modelled from the spec: constructing a `Website` validates the URL
string, raising a pydantic `ValidationError` on an invalid URL and wrapping
the URL otherwise. -/
def Website.validate (url : String) : Except PyError Website :=
  if isValidHttpUrl url then .ok ⟨url⟩
  else .error (.validationError "url")

/-- Modelled from the spec: the `Article` value object "wraps article fields
(title, author, content, summary, tags, url, image reference, published
timestamp, identifier)".  The published timestamp is kept as its rendered
string; the image reference is the `s3_img` field the scripts populate. -/
structure Article where
  title : String
  author : Option String
  content : Option String
  summary : Option String
  tags : List String
  url : Option String
  s3_img : Option String
  published_at : Option String
  id : String
  deriving DecidableEq

/-- Keyword arguments of an `Article(...)` construction: `none` means the
keyword was not supplied, so the field takes its default. -/
structure ArticleArgs where
  title : Option String := none
  author : Option String := none
  content : Option String := none
  summary : Option String := none
  tags : Option (List String) := none
  url : Option String := none
  s3_img : Option String := none
  published_at : Option String := none
  id : Option String := none
  deriving DecidableEq

/-- Modelled from the spec: `Article(...)` construction with "basic
type/format validation".  `title` is the required field (`Article()` raises
`ValidationError` in `tests/models/test_article_model.py`), while `author`,
`content`, `summary`, `tags`, `url`, `s3_img` and `published_at` default to
empty values — the in-repository callers `process_article_html` in both
listing-page scripts construct `Article(title=…, url=…, s3_img=…)` with no
`author`/`content` and rely on the construction succeeding, and
`fill_missing_data_abante.py` exists precisely to fill rows whose `author`
or `content` was stored as NULL.  A supplied `url` must be a valid URL and a
supplied `id` a valid UUID (`tests/models/test_article_model.py`); an absent
`id` defaults to a fresh UUID, passed here as `genId`. -/
def Article.validate (a : ArticleArgs) (genId : String) :
    Except PyError Article :=
  match a.title with
  | none => .error (.validationError "title: field required")
  | some t =>
      match a.url with
      | some u =>
          if isValidHttpUrl u then mkRest t a genId
          else .error (.validationError "url: invalid URL")
      | none => mkRest t a genId
where
  /-- Validate the `id` argument and assemble the record. -/
  mkRest (t : String) (a : ArticleArgs) (genId : String) :
      Except PyError Article :=
    match a.id with
    | some i =>
        if isValidUuid i then
          .ok ⟨t, a.author, a.content, a.summary, a.tags.getD [], a.url,
               a.s3_img, a.published_at, i⟩
        else .error (.validationError "id: invalid UUID")
    | none =>
        .ok ⟨t, a.author, a.content, a.summary, a.tags.getD [], a.url,
             a.s3_img, a.published_at, genId⟩

end Models

namespace NonAsync

/-- `Scrapers` enum from `src/scrapers/non_async.py`. -/
inductive Scrapers where
  | REQUESTS
  | SCRAPY
  | SELENIUM
  | FIREFOX
  deriving DecidableEq

/-- The concrete `Scraper` instances the factory can construct, carrying the
state their `__init__` methods set up.  Durations (seconds) are modelled as
naturals; `ScrapyScraper.__init__` raises before an instance exists, so no
constructor for it appears here. -/
inductive ScraperInstance where
  | RequestsScraper (userAgent : String)
  | SeleniumScraper (wait : Nat) (scroll_down : Bool) (scroll_down_until : Nat)
  | SeleniumFirefoxScraper (binaryLocation : String) (wait : Nat)
      (scroll_down : Bool) (scroll_down_until : Nat)
  deriving DecidableEq

/-- The enum member a constructed instance corresponds to. -/
def classOf : ScraperInstance → Scrapers
  | .RequestsScraper _ => .REQUESTS
  | .SeleniumScraper _ _ _ => .SELENIUM
  | .SeleniumFirefoxScraper _ _ _ _ => .FIREFOX

/-- The `User-Agent` header set by `RequestsScraper.__init__`. -/
def requestsUserAgent : String :=
  "Mozilla/5.0 (Windows NT 10.0; Win64; x64) AppleWebKit/537.36 (KHTML, like Gecko) Chrome/129.0.0.0 Safari/537.36"

/-- Aspects of the host environment that `get_scraper` observes:
`SeleniumFirefoxScraper.__init__` checks `os.path.exists("/usr/bin/firefox-esr")`
and raises `FileNotFoundError` when the binary is absent (the geckodriver
download performed by `webdriver_manager` is modelled as succeeding). -/
structure FactoryEnv where
  firefoxEsrPresent : Bool
  deriving DecidableEq

/-- Mutable state of a `ScraperFactory` object: the stored `self.scraper`
enum member (`Scrapers.REQUESTS` is the constructor default). -/
structure FactoryState where
  scraper : Scrapers
  deriving DecidableEq

/-- `ScraperFactory.__init__` with its default argument. -/
def ScraperFactory.init : FactoryState := ⟨Scrapers.REQUESTS⟩

/-- `ScraperFactory.get_scraper`: an optional argument overwrites the stored
scraper type, then the stored type is matched to construct a concrete
scraper.  Construction of `ScrapyScraper` raises `NotImplementedError` in its
`__init__`; construction of `SeleniumFirefoxScraper` raises
`FileNotFoundError` when the Firefox ESR binary is absent.  Returns the
result (instance or exception) together with the updated factory state. -/
def ScraperFactory.get_scraper (env : FactoryEnv) (scraper_type : Option Scrapers)
    (self : FactoryState) : Except PyError ScraperInstance × FactoryState :=
  let self : FactoryState :=
    match scraper_type with
    | some t => ⟨t⟩
    | none => self
  (match self.scraper with
   | .REQUESTS => .ok (.RequestsScraper requestsUserAgent)
   | .SCRAPY => .error .notImplementedError
   | .SELENIUM => .ok (.SeleniumScraper 25 true 10)
   | .FIREFOX =>
       if env.firefoxEsrPresent then
         .ok (.SeleniumFirefoxScraper "/usr/bin/firefox-esr" 25 true 10)
       else .error .fileNotFoundError,
   self)

/-- Outcome of the `requests.get` call in `RequestsScraper.scrape`: either a
transport-level failure (connection error, timeout, …) or an HTTP response
with a status code and a body text. -/
inductive HttpOutcome where
  | failure (msg : String)
  | response (status : Nat) (text : String)
  deriving DecidableEq

/-- `requests.Response.raise_for_status`: raises `HTTPError` exactly for
4xx and 5xx status codes. -/
def raise_for_status (status : Nat) : Except PyError Unit :=
  if 400 ≤ status ∧ status < 600 then .error (.httpError status) else .ok ()

/-- `RequestsScraper.scrape`: perform the GET (its outcome supplied by the
environment), call `raise_for_status`, and return `response.text`. -/
def RequestsScraper.scrape (outcome : HttpOutcome) : Except PyError String :=
  match outcome with
  | .failure msg => .error (.requestError msg)
  | .response status text =>
      match raise_for_status status with
      | .error e => .error e
      | .ok _ => .ok text

/-- Environment observed by `SeleniumScraper.scrape` once the page has loaded
and the `body` element is present: `heights k` is the `k`-th value the
browser reports for `document.body.scrollHeight` (the measurement before the
loop is `heights 0`, and iteration `k` measures `heights k` after scrolling);
`extraDelay k` is the time iteration `k` spends beyond the one-second
`time.sleep(scroll_pause)`; `pageSource` is `driver.page_source`.  Times are
in whole seconds. -/
structure ScrollEnv where
  heights : Nat → Int
  extraDelay : Nat → Nat
  pageSource : String

/-- Why the scroll loop exited. -/
inductive ScrollExit where
  | stabilized
  | timedOut
  deriving DecidableEq

/-- One-second granularity model of the `while time.time() < end_time` scroll
loop of `SeleniumScraper.scrape`.  State: current time `t`, number `k` of
height measurements taken after the initial one, last measured height
`last`.  Each iteration scrolls, sleeps one second (plus `extraDelay`),
measures the new height, and breaks when it equals the previous one.  The
fuel argument is initialised to `endTime - t`; since every iteration
advances `t` by at least one second, the fuel never runs out for that
initialisation.  Returns the exit reason, the index of the last height
measurement, and the exit time. -/
def scrollLoopF (env : ScrollEnv) (endTime : Nat) :
    Nat → Nat → Nat → Int → ScrollExit × Nat × Nat
  | fuel, t, k, last =>
    if t < endTime then
      match fuel with
      | 0 => (.timedOut, k, t)
      | fuel + 1 =>
          let t' := t + 1 + env.extraDelay k
          let newHeight := env.heights (k + 1)
          if newHeight = last then (.stabilized, k + 1, t')
          else scrollLoopF env endTime fuel t' (k + 1) newHeight
    else (.timedOut, k, t)

/-- The scroll loop of `SeleniumScraper.scrape`, entered with
`last_height = heights 0` at time `start` and with
`end_time = start + scroll_down_until`. -/
def scrollLoop (env : ScrollEnv) (endTime t : Nat) (k : Nat) (last : Int) :
    ScrollExit × Nat × Nat :=
  scrollLoopF env endTime (endTime - t) t k last

/-- `SeleniumScraper.scrape` after the `body` wait succeeds: run the scroll
loop with the 10-second `scroll_down_until` deadline and return
`driver.page_source`, paired here with the loop's observable exit data. -/
def SeleniumScraper.scrapeRun (env : ScrollEnv) (start : Nat) :
    (ScrollExit × Nat × Nat) × String :=
  (scrollLoop env (start + 10) start 0 (env.heights 0), env.pageSource)

/-- The string `SeleniumScraper.scrape` actually returns. -/
def SeleniumScraper.scrape (env : ScrollEnv) (start : Nat) : String :=
  (SeleniumScraper.scrapeRun env start).2

/-- The wall-clock time at which the loop guard for iteration `j` is
evaluated: iteration `i` takes `1 + extraDelay i` seconds. -/
def timeAt (env : ScrollEnv) (start : Nat) : Nat → Nat
  | 0 => start
  | j + 1 => timeAt env start j + 1 + env.extraDelay j

end NonAsync

namespace FillMissing

/-- The characters of the pattern literal in
`re.sub(r"\s*ADVERTISEMENT\s*", "", raw_content, flags=re.IGNORECASE)`. -/
def advert : List Char := "ADVERTISEMENT".toList

/-- Attempt to match `\s*ADVERTISEMENT\s*` (case-insensitively) at the head
of `s`, returning the remainder after the match.  Both `\s*` are greedy;
since `ADVERTISEMENT` starts with a non-whitespace character, the leading
`\s*` must consume exactly the maximal whitespace run. -/
def advertMatch (s : List Char) : Option (List Char) :=
  match stripCIFront advert (s.dropWhile isPySpace) with
  | some r => some (r.dropWhile isPySpace)
  | none => none

/-- `re.sub(r"\s*ADVERTISEMENT\s*", "", ·, flags=re.IGNORECASE)`: scan left
to right; at each position delete the leftmost match and resume scanning
after it (matched text is not re-scanned, exactly as `re.sub` behaves).
Fuel-driven: a match consumes at least the 13 pattern characters, so fuel
`s.length` suffices. -/
def subAdvertF : Nat → List Char → List Char
  | _, [] => []
  | 0, l => l
  | fuel + 1, c :: rest =>
    match advertMatch (c :: rest) with
    | some rem => subAdvertF fuel rem
    | none => c :: subAdvertF fuel rest

/-- The first cleanup pass applied to `raw_content`. -/
def subAdvert (l : List Char) : List Char := subAdvertF l.length l

/-- `re.sub(r"\n+", "\n", ·)`: replace every maximal run of newlines by a
single newline.  Fuel-driven for the same reason as `subAdvertF`. -/
def collapseNLF : Nat → List Char → List Char
  | _, [] => []
  | 0, l => l
  | fuel + 1, c :: rest =>
    if c = '\n' then c :: collapseNLF fuel (rest.dropWhile (fun d => d = '\n'))
    else c :: collapseNLF fuel rest

/-- The second cleanup pass applied to the content. -/
def collapseNL (l : List Char) : List Char := collapseNLF l.length l

/-- `raw_content`: the per-paragraph texts (each already the
space-joined text nodes of one `<p>`), stripped, the empty ones dropped,
and the rest joined with `"\n"`. -/
def rawContent (paras : List (List Char)) : List Char :=
  List.intercalate ['\n'] ((paras.map pyStrip).filter (fun p => !p.isEmpty))

/-- `cleaned_content`: the two regex passes followed by `str.strip()`. -/
def cleanedContent (raw : List Char) : List Char :=
  pyStrip (collapseNL (subAdvert raw))

/-- `scraped_data["content"]` in `scrape_missing_info`: the cleaned content,
or `None` when it is empty. -/
def scrapedContent (paras : List (List Char)) : Option (List Char) :=
  let cleaned := cleanedContent (rawContent paras)
  if cleaned.isEmpty then none else some cleaned

/-- Full month names with their numbers, as matched by `strptime`'s `%B`. -/
def monthNames : List (Nat × List Char) :=
  [(1, "January".toList), (2, "February".toList), (3, "March".toList),
   (4, "April".toList), (5, "May".toList), (6, "June".toList),
   (7, "July".toList), (8, "August".toList), (9, "September".toList),
   (10, "October".toList), (11, "November".toList), (12, "December".toList)]

/-- Match `%B` at the head of `s`: the first month name that is a
case-insensitive prefix (no full month name is a prefix of another, so the
order is irrelevant). -/
def matchMonth (s : List Char) : Option (Nat × List Char) :=
  go monthNames
where
  /-- Try each month name in turn. -/
  go : List (Nat × List Char) → Option (Nat × List Char)
    | [] => none
    | (m, name) :: rest =>
        match stripCIFront name s with
        | some r => some (m, r)
        | none => go rest

/-- Match one-or-more whitespace (the `\s+` a literal space in the format
string turns into) at the head of `s`. -/
def matchWs (s : List Char) : Option (List Char) :=
  match s with
  | c :: rest => if isPySpace c then some (rest.dropWhile isPySpace) else none
  | [] => none

/-- Is `c` an ASCII decimal digit? -/
def isDigitChar (c : Char) : Bool := '0' ≤ c && c ≤ '9'

/-- Numeric value of an ASCII digit. -/
def digitVal (c : Char) : Nat := c.toNat - 48

/-- Match `%d` at the head of `s`: CPython's `_strptime` uses the regex
`(3[01]|[12]\d|0[1-9]|[1-9])`, alternatives tried in this order. -/
def matchDay (s : List Char) : Option (Nat × List Char) :=
  match s with
  | c1 :: c2 :: rest =>
      if c1 = '3' && (c2 = '0' || c2 = '1') then some (30 + digitVal c2, rest)
      else if (c1 = '1' || c1 = '2') && isDigitChar c2 then
        some (10 * digitVal c1 + digitVal c2, rest)
      else if c1 = '0' && ('1' ≤ c2 && c2 ≤ '9') then some (digitVal c2, rest)
      else if '1' ≤ c1 && c1 ≤ '9' then some (digitVal c1, c2 :: rest)
      else none
  | [c1] => if '1' ≤ c1 && c1 ≤ '9' then some (digitVal c1, []) else none
  | [] => none

/-- Match `%Y` at the head of `s`: exactly four decimal digits
(`\d\d\d\d` in CPython's `_strptime`). -/
def matchYear (s : List Char) : Option (Nat × List Char) :=
  match s with
  | a :: b :: c :: d :: rest =>
      if isDigitChar a && isDigitChar b && isDigitChar c && isDigitChar d then
        some (1000 * digitVal a + 100 * digitVal b + 10 * digitVal c
                + digitVal d, rest)
      else none
  | _ => none

/-- Gregorian leap year, as used by `datetime`. -/
def isLeap (y : Nat) : Bool := y % 4 = 0 && (y % 100 ≠ 0 || y % 400 = 0)

/-- Number of days in a month, as validated by the `datetime` constructor. -/
def daysInMonth (y m : Nat) : Nat :=
  if m = 2 then (if isLeap y then 29 else 28)
  else if m = 4 || m = 6 || m = 9 || m = 11 then 30
  else 31

/-- `datetime.strptime(s, "%B %d, %Y")`: month name, whitespace, day,
a literal comma, whitespace, four-digit year, end of input (any trailing
text is "unconverted data" and raises `ValueError`), then the `datetime`
constructor's range check on the day and year. -/
def strptimeBdY (s : List Char) : Option (Nat × Nat × Nat) :=
  match matchMonth s with
  | none => none
  | some (m, r1) =>
    match matchWs r1 with
    | none => none
    | some r2 =>
      match matchDay r2 with
      | none => none
      | some (d, r3) =>
        match r3 with
        | ',' :: r4 =>
          match matchWs r4 with
          | none => none
          | some r5 =>
            match matchYear r5 with
            | none => none
            | some (y, r6) =>
                if r6.isEmpty ∧ 1 ≤ y ∧ 1 ≤ d ∧ d ≤ daysInMonth y m then
                  some (y, m, d)
                else none
        | _ => none

/-- The ASCII digit character for `n % 10`. -/
def digitChar (n : Nat) : Char := Char.ofNat (48 + n % 10)

/-- Zero-padded two-digit rendering. -/
def pad2 (n : Nat) : List Char := [digitChar (n / 10), digitChar n]

/-- Zero-padded four-digit rendering. -/
def pad4 (n : Nat) : List Char :=
  [digitChar (n / 1000), digitChar (n / 100), digitChar (n / 10), digitChar n]

/-- `datetime(y, m, d).isoformat()`: `YYYY-MM-DDT00:00:00`. -/
def isoRender (y m d : Nat) : List Char :=
  pad4 y ++ '-' :: pad2 m ++ '-' :: pad2 d ++ "T00:00:00".toList

/-- `scraped_data["published_at"]` in `scrape_missing_info`: take the first
`//li[@itemprop='datePublished']//time` text node, strip it, parse it with
`"%B %d, %Y"`, and render the result with `isoformat()`; the value is `None`
when the element list is empty, and the `except ValueError` branch makes it
`None` when parsing fails, so a malformed date never escapes as an
exception (the function is total). -/
def publishedAt (elems : List (List Char)) : Option (List Char) :=
  match elems with
  | [] => none
  | e :: _ =>
      match strptimeBdY (pyStrip e) with
      | some (y, m, d) => some (isoRender y m d)
      | none => none

end FillMissing

namespace ScrapeAbante

open Models

/-- One `<article>` element whose class contains `elementor-post`, as seen
through the three XPath queries `process_article_html` runs against it, in
document order: the `href` attributes of its
`a[@class='elementor-post__thumbnail__link']` elements (`None` when the
attribute is absent), the `text_content()` of its
`h3[@class='elementor-post__title']/a` elements, and the `src` attributes of
its `img` elements. -/
structure PostElem where
  thumbHrefs : List (Option String)
  titleTexts : List String
  imgSrcs : List (Option String)
  deriving DecidableEq

/-- The body of the `for article_element in article_elements` loop of
`process_article_html` (`scripts/scrape_abante_cloudinary.py`): index `[0]`
into each XPath result (an `IndexError` on an empty result is caught by the
`except Exception` and skips the element), strip the title text, and
construct `Article(title=…, url=…, s3_img=None)` (a `ValidationError` is
likewise caught and skips the element).  Returns the article paired with
the original image URL the loop stashes on it for the later upload; `none`
means the element was skipped.  `genId` stands for the `uuid4()` default of
the article's `id`. -/
def extract_article (genId : String) (e : PostElem) :
    Option (Article × Option String) :=
  match e.thumbHrefs.head? with
  | none => none
  | some href =>
    match e.titleTexts.head? with
    | none => none
    | some titleText =>
      match e.imgSrcs.head? with
      | none => none
      | some imgUrl =>
        match Article.validate
            { title := some (pyStripStr titleText), url := href,
              s3_img := none } genId with
        | .ok article => some (article, imgUrl)
        | .error _ => none

/-- The `for article_element in article_elements` loop of
`process_article_html`: run the loop body over every matched article
element, collecting the successfully extracted articles in order; skipped
elements contribute nothing and do not abort the rest, and the loop never
raises (it is a total function).  `genId` models the `uuid4()` id default
(the generated ids play no role in any claim). -/
def process_article_loop (genId : String) (elems : List PostElem) :
    List (Article × Option String) :=
  elems.filterMap (extract_article genId)

/-- `lxml.html.fromstring(html_str)`, as `process_article_html` calls it on
line 112 of `scrape_abante2.py` / line 177 of `scrape_abante_cloudinary.py`:
parsing an empty or whitespace-only document raises
`ParserError("Document is empty")`; otherwise the lenient HTML parser
produces a document, whose `elementor-post` article elements — as seen
through the loop's XPath queries — are supplied by the oracle `parse`.
(lxml may also reject a few further degenerate inputs, such as comment-only
documents; the claims rely only on the documented empty-document
failure.) -/
def html_fromstring (parse : String → List PostElem) (html_str : String) :
    Except PyError (List PostElem) :=
  if html_str.toList.all isPySpace then
    .error (.parserError "Document is empty")
  else .ok (parse html_str)

/-- `process_article_html` in full: parse the input HTML — the
`html.fromstring` call sits outside the loop's `try`/`except`, so its
`ParserError` propagates out of the function — then run the extraction
loop, which never raises, and return its article list. -/
def process_article_html (parse : String → List PostElem) (genId : String)
    (html_str : String) : Except PyError (List (Article × Option String)) :=
  match html_fromstring parse html_str with
  | .error e => .error e
  | .ok elems => .ok (process_article_loop genId elems)

/-- Environment observed by `upload_image_to_s3`
(`scripts/scrape_abante2.py`): the outcome of downloading the image
(`requests.get` plus `raise_for_status`), the outcome of
`s3.upload_fileobj`, and the module-level `S3_ENDPOINT_URL` /
`S3_BUCKET_NAME` configuration. -/
structure S3Env where
  downloadResult : Except String Unit
  uploadResult : Except String Unit
  endpointUrl : Option String
  bucketName : String

/-- `upload_image_to_s3`: download the image, upload it under
`scraped/<uuid4()>.jpg` (`imageUuid` models the generated uuid), and return
the stored object's URL; every exception inside the body is caught and
turns into `None`. -/
def upload_image_to_s3 (env : S3Env) (imageUuid : String) : Option String :=
  match env.downloadResult with
  | .error _ => none
  | .ok _ =>
    let image_path := "scraped/" ++ imageUuid ++ ".jpg"
    match env.uploadResult with
    | .error _ => none
    | .ok _ =>
      match env.endpointUrl with
      | some ep => some (ep ++ "/" ++ env.bucketName ++ "/" ++ image_path)
      | none =>
          some ("https://" ++ env.bucketName ++ ".s3.amazonaws.com/"
                ++ image_path)

/-- Python `dict.get`: the value for the first matching key, else `None`. -/
def dict_get (k : String) : List (String × String) → Option String
  | [] => none
  | (k', v) :: rest => if k' = k then some v else dict_get k rest

/-- Environment observed by `upload_image_to_cloudinary`
(`scripts/scrape_abante_cloudinary.py`): the outcome of
`cloudinary.uploader.upload`, whose successful value is the response
dictionary (string-valued entries suffice for the claims). -/
structure CloudinaryEnv where
  uploadResult : Except String (List (String × String))

/-- `upload_image_to_cloudinary`: run the upload and return
`upload_result.get("secure_url")`; every exception inside the body is caught
and turns into `None`. -/
def upload_image_to_cloudinary (env : CloudinaryEnv) : Option String :=
  match env.uploadResult with
  | .error _ => none
  | .ok resp => dict_get "secure_url" resp

/-- `article.model_dump()` followed by the string conversions `insert_article`
applies before handing the row to the Supabase client (the `tags` list is
forwarded as-is by the client and is omitted from this flat rendering). -/
def Article.dump (a : Article) : List (String × Option String) :=
  [("id", some a.id), ("title", some a.title), ("author", a.author),
   ("content", a.content), ("summary", a.summary), ("url", a.url),
   ("s3_img", a.s3_img), ("published_at", a.published_at)]

/-- Environment observed by `insert_article`: the outcome of
`supabase.table("articles").insert(payload).execute()` as a function of the
payload; the successful value is `response.data`, the list of inserted
rows. -/
structure SupabaseEnv where
  insertResult : List (String × Option String) →
    Except String (List (List (String × Option String)))

/-- `insert_article`: dump the article, insert it, and return
`response.data`; every exception inside the body (including Supabase API
errors) is caught and turns into `None`. -/
def insert_article (env : SupabaseEnv) (a : Article) :
    Option (List (List (String × Option String))) :=
  match env.insertResult (Article.dump a) with
  | .error _ => none
  | .ok data => some data

end ScrapeAbante

/-!
Supporting lemmas about the string helpers.
-/

/-- The head of a `dropWhile` result fails the predicate. -/
lemma dropWhile_head_not (p : Char → Bool) :
    ∀ (l : List Char) (b : Char), (l.dropWhile p).head? = some b → p b = false := by
  intro l
  induction l with
  | nil => intro b h; simp at h
  | cons c rest ih =>
      intro b h
      rw [List.dropWhile_cons] at h
      by_cases hc : p c = true
      · exact ih b (by simpa [hc] using h)
      · rw [if_neg hc] at h
        simp only [List.head?_cons, Option.some.injEq] at h
        subst h
        simpa using hc

/-- A list is its dropped prefix followed by its `dropWhile` result. -/
lemma dropWhile_decomp (p : Char → Bool) (l : List Char) :
    ∃ u, l = u ++ l.dropWhile p := by
  obtain ⟨t, ht⟩ := List.dropWhile_suffix (l := l) p
  exact ⟨t, ht.symm⟩

/-- A successful `stripCIFront` consumed exactly the pattern's length. -/
lemma stripCIFront_length :
    ∀ (pat s r : List Char), stripCIFront pat s = some r →
      r.length + pat.length = s.length := by
  intro pat
  induction pat with
  | nil => intro s r h; simp [stripCIFront] at h; simp [h]
  | cons p ps ih =>
      intro s r h
      cases s with
      | nil => simp [stripCIFront] at h
      | cons c cs =>
          simp only [stripCIFront] at h
          by_cases hc : charCI p c = true
          · have := ih cs r (by simpa [hc] using h)
            simp [List.length_cons]
            omega
          · simp [hc] at h

/-- A successful `stripCIFront` means the string starts with the pattern. -/
lemma startsWithCI_of_strip :
    ∀ (pat s r : List Char), stripCIFront pat s = some r →
      startsWithCI pat s = true := by
  intro pat
  induction pat with
  | nil => intro s r _; simp [startsWithCI]
  | cons p ps ih =>
      intro s r h
      cases s with
      | nil => simp [stripCIFront] at h
      | cons c cs =>
          simp only [stripCIFront] at h
          by_cases hc : charCI p c = true
          · simp only [startsWithCI, hc, Bool.true_and]
            exact ih cs r (by simpa [hc] using h)
          · simp [hc] at h

/-- Starting with a pattern survives appending on the right. -/
lemma startsWithCI_append :
    ∀ (pat v w : List Char), startsWithCI pat v = true →
      startsWithCI pat (v ++ w) = true := by
  intro pat
  induction pat with
  | nil => intro v w _; simp [startsWithCI]
  | cons p ps ih =>
      intro v w h
      cases v with
      | nil => simp [startsWithCI] at h
      | cons c cs =>
          simp only [startsWithCI, Bool.and_eq_true] at h ⊢
          exact ⟨h.1, ih cs w h.2⟩

/-- A pattern at the head of a list is a substring of it. -/
lemma hasSubCI_of_startsWith :
    ∀ (pat l : List Char), startsWithCI pat l = true → hasSubCI pat l = true := by
  intro pat l h
  cases l with
  | nil => simpa [hasSubCI] using h
  | cons c cs => simp [hasSubCI, h]

/-- A substring of the right part is a substring of an append. -/
lemma hasSubCI_append_right :
    ∀ (pat u v : List Char), hasSubCI pat v = true →
      hasSubCI pat (u ++ v) = true := by
  intro pat u
  induction u with
  | nil => intro v h; simpa using h
  | cons a u' ih =>
      intro v h
      simp only [List.cons_append, hasSubCI, Bool.or_eq_true]
      exact Or.inr (ih v h)

/-- A substring survives appending on the right. -/
lemma hasSubCI_extend_right :
    ∀ (pat v w : List Char), hasSubCI pat v = true →
      hasSubCI pat (v ++ w) = true := by
  intro pat v
  induction v with
  | nil =>
      intro w h
      simp only [hasSubCI] at h
      have hp : pat = [] := by
        cases pat with
        | nil => rfl
        | cons p ps => simp [startsWithCI] at h
      subst hp
      cases w with
      | nil => simp [hasSubCI, startsWithCI]
      | cons c cs => simp [hasSubCI, startsWithCI]
  | cons c cs ih =>
      intro w h
      simp only [hasSubCI, Bool.or_eq_true] at h
      rcases h with h | h
      · simp only [List.cons_append, hasSubCI, Bool.or_eq_true]
        exact Or.inl (startsWithCI_append pat (c :: cs) w h)
      · simp only [List.cons_append, hasSubCI, Bool.or_eq_true]
        exact Or.inr (ih w h)

/-- A substring of the middle part is a substring of the whole. -/
lemma hasSubCI_middle :
    ∀ (pat x y z : List Char), hasSubCI pat y = true →
      hasSubCI pat (x ++ y ++ z) = true := by
  intro pat x y z h
  rw [List.append_assoc]
  exact hasSubCI_append_right pat x (y ++ z) (hasSubCI_extend_right pat y z h)

/-- `noNN` is preserved by dropping the head. -/
lemma noNN_tail : ∀ (a : Char) (l : List Char), noNN (a :: l) = true → noNN l = true := by
  intro a l h
  cases l with
  | nil => rfl
  | cons b rest =>
      simp only [noNN, Bool.and_eq_true] at h
      exact h.2

/-- `noNN` restricts to the right part of an append. -/
lemma noNN_append_right :
    ∀ (x y : List Char), noNN (x ++ y) = true → noNN y = true := by
  intro x
  induction x with
  | nil => intro y h; simpa using h
  | cons a x' ih => intro y h; exact ih y (noNN_tail a (x' ++ y) h)

/-- `noNN` restricts to the left part of an append. -/
lemma noNN_append_left :
    ∀ (x y : List Char), noNN (x ++ y) = true → noNN x = true := by
  intro x
  induction x with
  | nil => intro y _; rfl
  | cons a x' ih =>
      intro y h
      cases x' with
      | nil => rfl
      | cons b x'' =>
          simp only [List.cons_append, noNN, Bool.and_eq_true] at h
          have h2 := ih y h.2
          simp only [noNN, Bool.and_eq_true]
          exact ⟨h.1, h2⟩

/-- Extending a `noNN` list by a head that does not create a newline pair. -/
lemma noNN_cons_of :
    ∀ (c : Char) (l : List Char), noNN l = true →
      (∀ d, l.head? = some d → (decide (c = '\n') && decide (d = '\n')) = false) →
      noNN (c :: l) = true := by
  intro c l h1 h2
  cases l with
  | nil => rfl
  | cons d rest =>
      simp only [noNN, Bool.and_eq_true]
      refine ⟨?_, h1⟩
      have := h2 d rfl
      simp only [Bool.not_eq_true']
      exact this

/-- `pyStrip` returns a contiguous middle piece of its input. -/
lemma pyStrip_middle (l : List Char) : ∃ u v, l = u ++ pyStrip l ++ v := by
  obtain ⟨u, hu⟩ := dropWhile_decomp isPySpace l
  obtain ⟨w, hw⟩ := dropWhile_decomp isPySpace (l.dropWhile isPySpace).reverse
  refine ⟨u, w.reverse, ?_⟩
  have hmid : l.dropWhile isPySpace = pyStrip l ++ w.reverse := by
    have := congrArg List.reverse hw
    rw [List.reverse_reverse, List.reverse_append] at this
    simpa [pyStrip] using this
  calc l = u ++ l.dropWhile isPySpace := hu
  _ = u ++ (pyStrip l ++ w.reverse) := by rw [hmid]
  _ = u ++ pyStrip l ++ w.reverse := by rw [List.append_assoc]

/-!
Lemmas about the two cleanup passes of `scrape_missing_info`.
-/

namespace FillMissing

/-- The head of the collapsed list is the head of the input. -/
lemma collapseNLF_head? : ∀ (fuel : Nat) (l : List Char),
    (collapseNLF fuel l).head? = l.head? := by
  intro fuel l
  cases l with
  | nil => cases fuel <;> rfl
  | cons c rest =>
      cases fuel with
      | zero => rfl
      | succ n =>
          simp only [collapseNLF]
          by_cases hc : c = '\n' <;> simp [hc]

/-- The collapsed list has no two consecutive newlines. -/
lemma noNN_collapseNLF : ∀ (fuel : Nat) (l : List Char),
    l.length ≤ fuel → noNN (collapseNLF fuel l) = true := by
  intro fuel
  induction fuel with
  | zero =>
      intro l h
      have : l = [] := List.length_eq_zero.mp (Nat.le_zero.mp h)
      subst this
      rfl
  | succ n ih =>
      intro l h
      cases l with
      | nil => rfl
      | cons c rest =>
          simp only [collapseNLF]
          by_cases hc : c = '\n'
          · simp only [hc, if_pos rfl]
            have hlen : (rest.dropWhile (fun d => d = '\n')).length ≤ n := by
              have h1 := (List.dropWhile_suffix
                (l := rest) (fun d => d = '\n')).length_le
              simp only [List.length_cons] at h
              omega
            refine noNN_cons_of '\n' _ (ih _ hlen) ?_
            intro d hd
            rw [collapseNLF_head?] at hd
            have hdnl := dropWhile_head_not (fun d => d = '\n') rest d hd
            simp only [decide_eq_false_iff_not] at hdnl ⊢
            simp [hdnl]
          · simp only [if_neg hc]
            have hlen : rest.length ≤ n := by
              simp only [List.length_cons] at h; omega
            refine noNN_cons_of c _ (ih _ hlen) ?_
            intro d _
            simp [hc]

/-- A pattern containing no character case-equal to a newline that starts
the collapsed list also starts the input. -/
lemma startsWithCI_collapseNLF : ∀ (fuel : Nat) (pat l : List Char),
    pat.all (fun ch => !charCI ch '\n') = true →
    startsWithCI pat (collapseNLF fuel l) = true → startsWithCI pat l = true := by
  intro fuel
  induction fuel with
  | zero =>
      intro pat l _ h
      cases l with
      | nil => simpa using h
      | cons c rest => simpa [collapseNLF] using h
  | succ n ih =>
      intro pat l hpat h
      cases l with
      | nil => simpa using h
      | cons c rest =>
          simp only [collapseNLF] at h
          by_cases hc : c = '\n'
          · rw [if_pos hc] at h
            cases pat with
            | nil => rfl
            | cons p ps =>
                exfalso
                simp only [startsWithCI, Bool.and_eq_true] at h
                simp only [List.all_cons, Bool.and_eq_true,
                  Bool.not_eq_true'] at hpat
                rw [hc] at h
                exact absurd h.1 (by simp [hpat.1])
          · rw [if_neg hc] at h
            cases pat with
            | nil => rfl
            | cons p ps =>
                simp only [startsWithCI, Bool.and_eq_true] at h ⊢
                simp only [List.all_cons, Bool.and_eq_true] at hpat
                exact ⟨h.1, ih ps rest (by simp [hpat.2]) h.2⟩

/-- A newline-free pattern occurring in the collapsed list occurs in the
input: collapsing newline runs never splices such a pattern together. -/
lemma hasSubCI_collapseNLF : ∀ (fuel : Nat) (pat l : List Char),
    pat.all (fun ch => !charCI ch '\n') = true → l.length ≤ fuel →
    hasSubCI pat (collapseNLF fuel l) = true → hasSubCI pat l = true := by
  intro fuel
  induction fuel with
  | zero =>
      intro pat l _ hlen h
      have : l = [] := List.length_eq_zero.mp (Nat.le_zero.mp hlen)
      subst this
      simpa using h
  | succ n ih =>
      intro pat l hpat hlen h
      cases l with
      | nil => simpa using h
      | cons c rest =>
          have hunf : collapseNLF (n + 1) (c :: rest)
              = c :: (if c = '\n' then collapseNLF n (rest.dropWhile (fun d => d = '\n'))
                      else collapseNLF n rest) := by
            simp only [collapseNLF]
            by_cases hc : c = '\n' <;> simp [hc]
          rw [hunf] at h
          simp only [hasSubCI, Bool.or_eq_true] at h
          rcases h with h | h
          · have hstart : startsWithCI pat (collapseNLF (n + 1) (c :: rest)) = true := by
              rw [hunf]
              exact h
            have := startsWithCI_collapseNLF (n + 1) pat (c :: rest) hpat hstart
            exact hasSubCI_of_startsWith pat (c :: rest) this
          · by_cases hc : c = '\n'
            · rw [if_pos hc] at h
              have hlen2 : (rest.dropWhile (fun d => d = '\n')).length ≤ n := by
                have h1 := (List.dropWhile_suffix
                  (l := rest) (fun d => d = '\n')).length_le
                simp only [List.length_cons] at hlen
                omega
              have hsub := ih pat _ hpat hlen2 h
              obtain ⟨u, hu⟩ := dropWhile_decomp (fun d => d = '\n') rest
              have : hasSubCI pat rest = true := by
                rw [hu]
                exact hasSubCI_append_right pat u _ hsub
              simp only [hasSubCI, Bool.or_eq_true]
              exact Or.inr this
            · rw [if_neg hc] at h
              have hlen2 : rest.length ≤ n := by
                simp only [List.length_cons] at hlen; omega
              have := ih pat rest hpat hlen2 h
              simp only [hasSubCI, Bool.or_eq_true]
              exact Or.inr this

/-- When the text contains no case-insensitive occurrence of the pattern,
the `ADVERTISEMENT` substitution pass leaves it unchanged. -/
lemma subAdvertF_id_of_no_advert : ∀ (fuel : Nat) (l : List Char),
    hasSubCI advert l = false → subAdvertF fuel l = l := by
  intro fuel
  induction fuel with
  | zero => intro l _; cases l <;> rfl
  | succ n ih =>
      intro l h
      cases l with
      | nil => rfl
      | cons c rest =>
          have hmatch : advertMatch (c :: rest) = none := by
            cases hm : advertMatch (c :: rest) with
            | none => rfl
            | some rem =>
                exfalso
                simp only [advertMatch] at hm
                cases hs : stripCIFront advert ((c :: rest).dropWhile isPySpace) with
                | none => rw [hs] at hm; exact Option.noConfusion hm
                | some r =>
                    have hstart := startsWithCI_of_strip advert _ r hs
                    obtain ⟨u, hu⟩ := dropWhile_decomp isPySpace (c :: rest)
                    have : hasSubCI advert (c :: rest) = true := by
                      rw [hu]
                      exact hasSubCI_append_right advert u _
                        (hasSubCI_of_startsWith advert _ hstart)
                    rw [this] at h
                    exact Bool.noConfusion h
          simp only [subAdvertF, hmatch]
          have h2 : hasSubCI advert rest = false := by
            simp only [hasSubCI, Bool.or_eq_false_iff] at h
            exact h.2
          rw [ih rest h2]

end FillMissing

/-!
Lemmas about the scroll loop of `SeleniumScraper.scrape`.
-/

namespace NonAsync

/-- The guard evaluation times advance by at least one second each
iteration, so `timeAt` dominates `start + j`. -/
lemma timeAt_ge (env : ScrollEnv) (start : Nat) :
    ∀ j, start + j ≤ timeAt env start j := by
  intro j
  induction j with
  | zero => simp [timeAt]
  | succ n ih => simp only [timeAt]; omega

/-- Behaviour of the fuel-driven scroll loop when entered at the guard
check for iteration `j` with the invariant state `(timeAt j, j, heights j)`
and enough fuel: the exit index extends `j`, the exit time is the guard
time of the exit index, every completed iteration passed its deadline
guard, a stabilized exit found the first pair of equal consecutive heights,
and a timed-out exit found none while its exit guard time reached the
deadline. -/
lemma scrollLoopF_spec (env : ScrollEnv) (endT start : Nat) :
    ∀ (fuel j : Nat), endT - timeAt env start j ≤ fuel →
    ∀ ex kf tf, scrollLoopF env endT fuel (timeAt env start j) j (env.heights j)
        = (ex, kf, tf) →
      j ≤ kf ∧ tf = timeAt env start kf ∧
      (∀ i, j ≤ i → i < kf → timeAt env start i < endT) ∧
      (ex = .stabilized → j < kf ∧ env.heights kf = env.heights (kf - 1) ∧
        ∀ i, j < i → i < kf → env.heights i ≠ env.heights (i - 1)) ∧
      (ex = .timedOut → endT ≤ timeAt env start kf ∧
        ∀ i, j < i → i ≤ kf → env.heights i ≠ env.heights (i - 1)) := by
  intro fuel
  induction fuel with
  | zero =>
      intro j hfuel ex kf tf hrun
      by_cases hg : timeAt env start j < endT
      · omega
      · rw [scrollLoopF, if_neg hg] at hrun
        obtain ⟨he, hk, ht⟩ : ex = .timedOut ∧ kf = j ∧ tf = timeAt env start j := by
          injection hrun with h1 h2
          injection h2 with h2a h2b
          exact ⟨h1.symm, h2a.symm, h2b.symm⟩
        subst he; subst hk; subst ht
        refine ⟨Nat.le_refl _, rfl, ?_, ?_, ?_⟩
        · intro i h1 h2; omega
        · intro h; exact absurd h (by simp)
        · intro _; exact ⟨by omega, by intro i h1 h2; omega⟩
  | succ n ih =>
      intro j hfuel ex kf tf hrun
      by_cases hg : timeAt env start j < endT
      · rw [scrollLoopF, if_pos hg] at hrun
        by_cases heq : env.heights (j + 1) = env.heights j
        · rw [if_pos heq] at hrun
          obtain ⟨he, hk, ht⟩ :
              ex = .stabilized ∧ kf = j + 1 ∧
                tf = timeAt env start j + 1 + env.extraDelay j := by
            injection hrun with h1 h2
            injection h2 with h2a h2b
            exact ⟨h1.symm, h2a.symm, h2b.symm⟩
          subst he; subst hk; subst ht
          refine ⟨by omega, by simp [timeAt], ?_, ?_, ?_⟩
          · intro i h1 h2
            have : i = j := by omega
            subst this
            exact hg
          · intro _
            refine ⟨by omega, by simpa using heq, ?_⟩
            intro i h1 h2
            omega
          · intro h; exact absurd h (by simp)
        · rw [if_neg heq] at hrun
          have hstep : timeAt env start j + 1 + env.extraDelay j
              = timeAt env start (j + 1) := rfl
          rw [hstep] at hrun
          have hfuel2 : endT - timeAt env start (j + 1) ≤ n := by
            have : timeAt env start j + 1 ≤ timeAt env start (j + 1) := by
              simp only [timeAt]; omega
            omega
          have hspec := ih (j + 1) hfuel2 ex kf tf hrun
          obtain ⟨hjk, htf, hguard, hstab, htime⟩ := hspec
          refine ⟨by omega, htf, ?_, ?_, ?_⟩
          · intro i h1 h2
            rcases Nat.eq_or_lt_of_le h1 with h | h
            · subst h; exact hg
            · exact hguard i (by omega) h2
          · intro h
            obtain ⟨hlt, hkf, hnot⟩ := hstab h
            refine ⟨by omega, hkf, ?_⟩
            intro i h1 h2
            rcases Nat.eq_or_lt_of_le (Nat.succ_le_of_lt h1) with h3 | h3
            · have : i = j + 1 := h3.symm
              subst this
              simpa using heq
            · exact hnot i (by omega) h2
          · intro h
            obtain ⟨hend, hnot⟩ := htime h
            refine ⟨hend, ?_⟩
            intro i h1 h2
            rcases Nat.eq_or_lt_of_le (Nat.succ_le_of_lt h1) with h3 | h3
            · have : i = j + 1 := h3.symm
              subst this
              simpa using heq
            · exact hnot i (by omega) h2
      · rw [scrollLoopF, if_neg hg] at hrun
        obtain ⟨he, hk, ht⟩ : ex = .timedOut ∧ kf = j ∧ tf = timeAt env start j := by
          injection hrun with h1 h2
          injection h2 with h2a h2b
          exact ⟨h1.symm, h2a.symm, h2b.symm⟩
        subst he; subst hk; subst ht
        refine ⟨Nat.le_refl _, rfl, ?_, ?_, ?_⟩
        · intro i h1 h2; omega
        · intro h; exact absurd h (by simp)
        · intro _; exact ⟨by omega, by intro i h1 h2; omega⟩

end NonAsync

namespace Models

/-- A successful `Article.validate` returns a record whose `title`, `url`
and `s3_img` fields come from the supplied arguments. -/
lemma Article.validate_ok (args : ArticleArgs) (gid : String) (art : Article)
    (h : Article.validate args gid = .ok art) :
    args.title = some art.title ∧ art.url = args.url ∧ art.s3_img = args.s3_img := by
  have hmk : ∀ t, Article.validate.mkRest t args gid = .ok art →
      t = art.title ∧ art.url = args.url ∧ art.s3_img = args.s3_img := by
    intro t hm
    cases hi : args.id with
    | some i =>
        simp only [Article.validate.mkRest, hi] at hm
        by_cases hv : isValidUuid i = true
        · rw [if_pos hv] at hm
          injection hm with hm
          subst hm
          exact ⟨rfl, rfl, rfl⟩
        · rw [if_neg hv] at hm
          exact Except.noConfusion hm
    | none =>
        simp only [Article.validate.mkRest, hi] at hm
        injection hm with hm
        subst hm
        exact ⟨rfl, rfl, rfl⟩
  cases ht : args.title with
  | none =>
      simp only [Article.validate, ht] at h
      exact Except.noConfusion h
  | some t =>
      cases hu : args.url with
      | some u =>
          simp only [Article.validate, ht, hu] at h
          by_cases hv : isValidHttpUrl u = true
          · rw [if_pos hv] at h
            obtain ⟨h1, h2, h3⟩ := hmk t h
            exact ⟨by rw [h1], h2.trans hu, h3⟩
          · rw [if_neg hv] at h
            exact Except.noConfusion h
      | none =>
          simp only [Article.validate, ht, hu] at h
          obtain ⟨h1, h2, h3⟩ := hmk t h
          exact ⟨by rw [h1], h2.trans hu, h3⟩

end Models

/-!
Claim theorems.
-/

/-- C1: the spec (and the repository's own test `test_factory_object_creation`)
promises that `ScraperFactory.get_scraper` returns an instance of the
corresponding concrete subclass for every `Scrapers` member, but the code
raises at `Scrapers.SCRAPY`: the `REQUESTS` call returns a
`RequestsScraper` instance, while the `SCRAPY` call raises the
`NotImplementedError` thrown by `ScrapyScraper.__init__` — the very pair of
calls the test asserts both succeed. -/
theorem claim1_get_scraper_scrapy_raises :
    NonAsync.ScraperFactory.get_scraper ⟨true⟩ (some NonAsync.Scrapers.REQUESTS)
        NonAsync.ScraperFactory.init
      = (Except.ok (NonAsync.ScraperInstance.RequestsScraper NonAsync.requestsUserAgent),
         ⟨NonAsync.Scrapers.REQUESTS⟩)
    ∧ NonAsync.ScraperFactory.get_scraper ⟨true⟩ (some NonAsync.Scrapers.SCRAPY)
        NonAsync.ScraperFactory.init
      = (Except.error PyError.notImplementedError, ⟨NonAsync.Scrapers.SCRAPY⟩) :=
  ⟨rfl, rfl⟩

/-- C5: `RequestsScraper.scrape` returns the HTTP response body exactly when
the GET request completes with a non-error status; an error status (4xx/5xx)
makes it raise the `HTTPError` of `raise_for_status`, and a transport
failure of the GET itself propagates as an exception. -/
theorem claim5_requests_scrape (o : NonAsync.HttpOutcome) :
    (∀ st text, o = .response st text → ¬(400 ≤ st ∧ st < 600) →
       NonAsync.RequestsScraper.scrape o = .ok text)
    ∧ (∀ st text, o = .response st text → 400 ≤ st → st < 600 →
       NonAsync.RequestsScraper.scrape o = .error (PyError.httpError st))
    ∧ (∀ msg, o = .failure msg →
       NonAsync.RequestsScraper.scrape o = .error (PyError.requestError msg))
    ∧ (∀ s, NonAsync.RequestsScraper.scrape o = .ok s →
       ∃ st, o = .response st s ∧ ¬(400 ≤ st ∧ st < 600)) := by
  refine ⟨?_, ?_, ?_, ?_⟩
  · intro st text ho hst
    subst ho
    simp [NonAsync.RequestsScraper.scrape, NonAsync.raise_for_status, hst]
  · intro st text ho h4 h6
    subst ho
    simp [NonAsync.RequestsScraper.scrape, NonAsync.raise_for_status, h4, h6]
  · intro msg ho
    subst ho
    rfl
  · intro s h
    cases o with
    | failure msg => simp [NonAsync.RequestsScraper.scrape] at h
    | response st text =>
        by_cases hst : 400 ≤ st ∧ st < 600
        · simp [NonAsync.RequestsScraper.scrape, NonAsync.raise_for_status, hst] at h
        · refine ⟨st, ?_, hst⟩
          simp [NonAsync.RequestsScraper.scrape, NonAsync.raise_for_status, hst] at h
          simp [h]

/-- Witness for C5 at a concrete 200 response. -/
theorem claim5_witness :
    NonAsync.RequestsScraper.scrape (.response 200 "<html></html>")
      = .ok "<html></html>" :=
  (claim5_requests_scrape (.response 200 "<html></html>")).1 200 "<html></html>"
    rfl (by omega)

/-- C6: the `published_at` value of `scrape_missing_info` is the ISO-8601
rendering of the first `datePublished` `time` text parsed with
`"%B %d, %Y"`; it is `None` exactly when the element list is empty or the
stripped text fails to parse under that format, and since `publishedAt` is a
total function a malformed date never raises. -/
theorem claim6_published_at (elems : List (List Char)) :
    (FillMissing.publishedAt elems = none ↔
       elems = [] ∨ ∃ e rest, elems = e :: rest ∧
         FillMissing.strptimeBdY (pyStrip e) = none)
    ∧ (∀ e rest y m d, elems = e :: rest →
       FillMissing.strptimeBdY (pyStrip e) = some (y, m, d) →
       FillMissing.publishedAt elems = some (FillMissing.isoRender y m d)) := by
  constructor
  · cases elems with
    | nil => simp [FillMissing.publishedAt]
    | cons e rest =>
        cases hp : FillMissing.strptimeBdY (pyStrip e) with
        | none =>
            simp only [FillMissing.publishedAt, hp]
            constructor
            · intro _
              exact Or.inr ⟨e, rest, rfl, hp⟩
            · intro _
              trivial
        | some v =>
            obtain ⟨y, m, d⟩ := v
            simp only [FillMissing.publishedAt, hp]
            constructor
            · intro h
              exact Option.noConfusion h
            · intro h
              rcases h with h | ⟨e', rest', he, hp'⟩
              · exact List.noConfusion h
              · obtain ⟨he1, he2⟩ : e' = e ∧ rest' = rest := by
                  injection he with h1 h2
                  exact ⟨h1.symm, h2.symm⟩
                subst he1
                rw [hp] at hp'
                exact Option.noConfusion hp'
  · intro e rest y m d he hp
    subst he
    simp [FillMissing.publishedAt, hp]

/-- Witness for C6 at the concrete date text `"May 12, 2025"`. -/
theorem claim6_witness :
    FillMissing.publishedAt ["May 12, 2025".toList]
      = some ("2025-05-12T00:00:00".toList) := by
  have h := (claim6_published_at ["May 12, 2025".toList]).2
    "May 12, 2025".toList [] 2025 5 12 rfl (by decide)
  exact h.trans (by decide)

/-- C7: constructing a `Website` from a string that is not a valid URL fails
with a `ValidationError`, and constructing one from a valid URL string
succeeds and wraps exactly that URL — for every candidate string, hence for
every string the call sites pass. -/
theorem claim7_website_validation (s : String) :
    (Models.isValidHttpUrl s = true →
       Models.Website.validate s = .ok ⟨s⟩)
    ∧ (Models.isValidHttpUrl s = false →
       Models.Website.validate s = .error (PyError.validationError "url")) := by
  constructor
  · intro h
    simp [Models.Website.validate, h]
  · intro h
    simp [Models.Website.validate, h]

/-- Witness for C7 at the listing-page URL the scripts construct a `Website`
from, and at the invalid string used by the model tests. -/
theorem claim7_witness :
    Models.Website.validate "https://www.abante.com.ph/category/news/"
      = .ok ⟨"https://www.abante.com.ph/category/news/"⟩
    ∧ Models.Website.validate "invalid-url"
      = .error (PyError.validationError "url") :=
  ⟨(claim7_website_validation "https://www.abante.com.ph/category/news/").1 (by decide),
   (claim7_website_validation "invalid-url").2 (by decide)⟩

/-- C4 counterexample: an `Article` constructed with `title` and `url` but
with `author` and `content` missing validates successfully — the claim that
omitting any of `title`, `author`, `content` raises a `ValidationError` is
false, and the listing-page scrapers depend on this construction
succeeding. -/
theorem claim4_counterexample :
    Models.Article.validate
        { title := some "Test Title", url := some "https://example.com" }
        "d9428888-122b-11e1-b85c-61cd3cbb3210"
      = .ok { title := "Test Title", author := none, content := none,
              summary := none, tags := [], url := some "https://example.com",
              s3_img := none, published_at := none,
              id := "d9428888-122b-11e1-b85c-61cd3cbb3210" } := rfl

/-- C4 (amended): constructing an `Article` with `title`, `author` and
`content` supplied (even as empty strings) succeeds; constructing one with
`title` missing raises a `ValidationError` (while `author` and `content`
are optional with `None` defaults); and a supplied `url` that is not a
valid URL, or a supplied `id` that is not a valid UUID, raises a
`ValidationError`. -/
theorem claim4_article_validation :
    (∀ t a c gid, Models.Article.validate
        { title := some t, author := some a, content := some c } gid
      = .ok { title := t, author := some a, content := some c, summary := none,
              tags := [], url := none, s3_img := none, published_at := none,
              id := gid })
    ∧ (∀ (args : Models.ArticleArgs) gid, args.title = none →
       Models.Article.validate args gid
         = .error (PyError.validationError "title: field required"))
    ∧ (∀ (args : Models.ArticleArgs) gid u, args.url = some u →
       Models.isValidHttpUrl u = false →
       ∃ msg, Models.Article.validate args gid
         = .error (PyError.validationError msg))
    ∧ (∀ (args : Models.ArticleArgs) gid i, args.id = some i →
       Models.isValidUuid i = false →
       ∃ msg, Models.Article.validate args gid
         = .error (PyError.validationError msg)) := by
  refine ⟨?_, ?_, ?_, ?_⟩
  · intro t a c gid
    rfl
  · intro args gid ht
    simp [Models.Article.validate, ht]
  · intro args gid u hu hvalid
    cases ht : args.title with
    | none =>
        exact ⟨"title: field required", by simp [Models.Article.validate, ht]⟩
    | some t =>
        refine ⟨"url: invalid URL", ?_⟩
        simp [Models.Article.validate, ht, hu, hvalid]
  · intro args gid i hi hvalid
    cases ht : args.title with
    | none =>
        exact ⟨"title: field required", by simp [Models.Article.validate, ht]⟩
    | some t =>
        cases hu : args.url with
        | some u =>
            by_cases hv : Models.isValidHttpUrl u = true
            · refine ⟨"id: invalid UUID", ?_⟩
              simp [Models.Article.validate, Models.Article.validate.mkRest,
                ht, hu, hv, hi, hvalid]
            · refine ⟨"url: invalid URL", ?_⟩
              simp only [Bool.not_eq_true] at hv
              simp [Models.Article.validate, ht, hu, hv]
        | none =>
            refine ⟨"id: invalid UUID", ?_⟩
            simp [Models.Article.validate, Models.Article.validate.mkRest,
              ht, hu, hi, hvalid]

/-- Witness for C4 at the concrete inputs of the model tests: empty strings
are accepted, `Article()` raises, an invalid `url` raises, and an invalid
`id` raises. -/
theorem claim4_witness :
    Models.Article.validate
        { title := some "", author := some "", content := some "" }
        "d9428888-122b-11e1-b85c-61cd3cbb3210"
      = .ok { title := "", author := some "", content := some "",
              summary := none, tags := [], url := none, s3_img := none,
              published_at := none,
              id := "d9428888-122b-11e1-b85c-61cd3cbb3210" }
    ∧ Models.Article.validate {} "d9428888-122b-11e1-b85c-61cd3cbb3210"
      = .error (PyError.validationError "title: field required")
    ∧ (∃ msg, Models.Article.validate
        { title := some "Test Title", author := some "Test Author",
          content := some "Test Content", url := some "invalid-url" }
        "d9428888-122b-11e1-b85c-61cd3cbb3210"
      = .error (PyError.validationError msg))
    ∧ (∃ msg, Models.Article.validate
        { title := some "Test Title", author := some "Test Author",
          content := some "Test Content", id := some "not-a-valid-uuid" }
        "d9428888-122b-11e1-b85c-61cd3cbb3210"
      = .error (PyError.validationError msg)) :=
  ⟨claim4_article_validation.1 "" "" "" "d9428888-122b-11e1-b85c-61cd3cbb3210",
   claim4_article_validation.2.1 {} "d9428888-122b-11e1-b85c-61cd3cbb3210" rfl,
   claim4_article_validation.2.2.1 _ "d9428888-122b-11e1-b85c-61cd3cbb3210"
     "invalid-url" rfl (by decide),
   claim4_article_validation.2.2.2 _ "d9428888-122b-11e1-b85c-61cd3cbb3210"
     "not-a-valid-uuid" rfl (by decide)⟩

/-- C10 counterexample: a no-argument `get_scraper` call on a factory whose
stored type is `Scrapers.SCRAPY` does not return a scraper of the stored
type — it raises `NotImplementedError` — so the claim's "returns a scraper
of that stored type" fails. -/
theorem claim10_counterexample :
    (NonAsync.ScraperFactory.get_scraper ⟨true⟩ none
        ⟨NonAsync.Scrapers.SCRAPY⟩).1
      = Except.error PyError.notImplementedError := rfl

/-- C10 (amended): a no-argument `get_scraper` call leaves the stored
scraper type unchanged and, whenever construction succeeds, returns an
instance of the stored type (for a stored `SCRAPY` it instead raises
`NotImplementedError`, and a stored `FIREFOX` raises `FileNotFoundError`
when the Firefox ESR binary is absent); calling with an explicit member
overwrites the stored type with exactly that member — even when the
subsequent construction raises — so any later no-argument call that
returns an instance returns one of the most recently supplied type. -/
theorem claim10_factory_state (env : NonAsync.FactoryEnv)
    (st : NonAsync.FactoryState) (t : NonAsync.Scrapers) :
    ((NonAsync.ScraperFactory.get_scraper env none st).2 = st)
    ∧ ((NonAsync.ScraperFactory.get_scraper env (some t) st).2 = ⟨t⟩)
    ∧ (∀ i, (NonAsync.ScraperFactory.get_scraper env none st).1 = Except.ok i →
        NonAsync.classOf i = st.scraper)
    ∧ (∀ i, (NonAsync.ScraperFactory.get_scraper env (some t) st).1 = Except.ok i →
        NonAsync.classOf i = t)
    ∧ (st.scraper = NonAsync.Scrapers.SCRAPY →
        (NonAsync.ScraperFactory.get_scraper env none st).1
          = Except.error PyError.notImplementedError)
    ∧ (∀ i, (NonAsync.ScraperFactory.get_scraper env none
          ((NonAsync.ScraperFactory.get_scraper env (some t) st).2)).1
            = Except.ok i →
        NonAsync.classOf i = t) := by
  obtain ⟨sc⟩ := st
  obtain ⟨fp⟩ := env
  refine ⟨rfl, rfl, ?_, ?_, ?_, ?_⟩
  · intro i h
    cases sc <;> cases fp <;>
      first
      | (injection h with h; rw [← h]; rfl)
      | exact Except.noConfusion h
  · intro i h
    cases t <;> cases fp <;>
      first
      | (injection h with h; rw [← h]; rfl)
      | exact Except.noConfusion h
  · intro h
    cases h
    rfl
  · intro i h
    cases t <;> cases fp <;>
      first
      | (injection h with h; rw [← h]; rfl)
      | exact Except.noConfusion h

/-- Witness for C10: after supplying `SELENIUM`, the returned instance is a
`SeleniumScraper`, i.e. of the most recently supplied type. -/
theorem claim10_witness :
    NonAsync.classOf (NonAsync.ScraperInstance.SeleniumScraper 25 true 10)
      = NonAsync.Scrapers.SELENIUM :=
  (claim10_factory_state ⟨true⟩ ⟨NonAsync.Scrapers.REQUESTS⟩
      NonAsync.Scrapers.SELENIUM).2.2.2.1
    (NonAsync.ScraperInstance.SeleniumScraper 25 true 10) rfl

/-- C8 counterexample: a `cloudinary.uploader.upload` call that succeeds but
whose response dictionary lacks a `secure_url` key makes
`upload_image_to_cloudinary` return `None` even though no error occurred —
so "on success each returns a non-None value" fails for this adapter. -/
theorem claim8_counterexample :
    ScrapeAbante.upload_image_to_cloudinary
        ⟨Except.ok [("public_id", "abc123")]⟩ = none := rfl

/-- C8 (amended): each external-service adapter catches every error inside
its body and returns `None` instead of propagating an exception;
`upload_image_to_s3` returns the stored object's URL exactly when both the
download and the upload succeed, `insert_article` returns the response's
row data exactly when the insert succeeds, and `upload_image_to_cloudinary`
returns the response's `secure_url` value on success — which is `None` when
the response lacks that key. -/
theorem claim8_adapters (e1 : ScrapeAbante.S3Env) (u : String)
    (e2 : ScrapeAbante.CloudinaryEnv) (e3 : ScrapeAbante.SupabaseEnv)
    (a : Models.Article) :
    (∀ m, e1.downloadResult = .error m →
       ScrapeAbante.upload_image_to_s3 e1 u = none)
    ∧ (∀ m, e1.uploadResult = .error m →
       ScrapeAbante.upload_image_to_s3 e1 u = none)
    ∧ (e1.downloadResult = .ok () → e1.uploadResult = .ok () →
       ∃ s, ScrapeAbante.upload_image_to_s3 e1 u = some s)
    ∧ (∀ m, e2.uploadResult = .error m →
       ScrapeAbante.upload_image_to_cloudinary e2 = none)
    ∧ (∀ resp, e2.uploadResult = .ok resp →
       ScrapeAbante.upload_image_to_cloudinary e2
         = ScrapeAbante.dict_get "secure_url" resp)
    ∧ (∀ m, e3.insertResult (ScrapeAbante.Article.dump a) = .error m →
       ScrapeAbante.insert_article e3 a = none)
    ∧ (∀ d, e3.insertResult (ScrapeAbante.Article.dump a) = .ok d →
       ScrapeAbante.insert_article e3 a = some d) := by
  refine ⟨?_, ?_, ?_, ?_, ?_, ?_, ?_⟩
  · intro m h
    simp [ScrapeAbante.upload_image_to_s3, h]
  · intro m h
    cases hd : e1.downloadResult with
    | error m' => simp [ScrapeAbante.upload_image_to_s3, hd]
    | ok v => cases v; simp [ScrapeAbante.upload_image_to_s3, hd, h]
  · intro h1 h2
    cases he : e1.endpointUrl with
    | some ep =>
        exact ⟨ep ++ "/" ++ e1.bucketName ++ "/" ++ ("scraped/" ++ u ++ ".jpg"),
          by simp [ScrapeAbante.upload_image_to_s3, h1, h2, he]⟩
    | none =>
        exact ⟨"https://" ++ e1.bucketName ++ ".s3.amazonaws.com/"
            ++ ("scraped/" ++ u ++ ".jpg"),
          by simp [ScrapeAbante.upload_image_to_s3, h1, h2, he]⟩
  · intro m h
    simp [ScrapeAbante.upload_image_to_cloudinary, h]
  · intro resp h
    simp [ScrapeAbante.upload_image_to_cloudinary, h]
  · intro m h
    simp [ScrapeAbante.insert_article, h]
  · intro d h
    simp [ScrapeAbante.insert_article, h]

/-- Witness for C8 at concrete environments: a failed download yields
`None`, a successful S3 upload yields the MinIO-style URL, a successful
Cloudinary upload yields the `secure_url` value, and a successful insert
yields the response data. -/
theorem claim8_witness :
    ScrapeAbante.upload_image_to_s3
        ⟨.error "404 Client Error", .ok (), some "http://minio.local:9000", "bucket"⟩
        "u1" = none
    ∧ (∃ s, ScrapeAbante.upload_image_to_s3
        ⟨.ok (), .ok (), some "http://minio.local:9000", "bucket"⟩ "u1" = some s)
    ∧ ScrapeAbante.upload_image_to_cloudinary
        ⟨.ok [("secure_url", "https://res.cloudinary.example/x.jpg")]⟩
      = ScrapeAbante.dict_get "secure_url"
          [("secure_url", "https://res.cloudinary.example/x.jpg")]
    ∧ ScrapeAbante.insert_article ⟨fun _ => .ok []⟩
        { title := "T", author := none, content := none, summary := none,
          tags := [], url := none, s3_img := none, published_at := none,
          id := "u1" } = some [] := by
  refine ⟨?_, ?_, ?_, ?_⟩
  · exact (claim8_adapters
      ⟨.error "404 Client Error", .ok (), some "http://minio.local:9000", "bucket"⟩
      "u1" ⟨.ok []⟩ ⟨fun _ => .ok []⟩
      { title := "T", author := none, content := none, summary := none,
        tags := [], url := none, s3_img := none, published_at := none,
        id := "u1" }).1 "404 Client Error" rfl
  · exact (claim8_adapters
      ⟨.ok (), .ok (), some "http://minio.local:9000", "bucket"⟩
      "u1" ⟨.ok []⟩ ⟨fun _ => .ok []⟩
      { title := "T", author := none, content := none, summary := none,
        tags := [], url := none, s3_img := none, published_at := none,
        id := "u1" }).2.2.1 rfl rfl
  · exact (claim8_adapters
      ⟨.ok (), .ok (), none, "bucket"⟩ "u1"
      ⟨.ok [("secure_url", "https://res.cloudinary.example/x.jpg")]⟩
      ⟨fun _ => .ok []⟩
      { title := "T", author := none, content := none, summary := none,
        tags := [], url := none, s3_img := none, published_at := none,
        id := "u1" }).2.2.2.2.1
      [("secure_url", "https://res.cloudinary.example/x.jpg")] rfl
  · exact (claim8_adapters
      ⟨.ok (), .ok (), none, "bucket"⟩ "u1" ⟨.ok []⟩ ⟨fun _ => .ok []⟩
      { title := "T", author := none, content := none, summary := none,
        tags := [], url := none, s3_img := none, published_at := none,
        id := "u1" }).2.2.2.2.2.2 [] rfl

/-- C3 counterexample: on the empty input string the initial
`html.fromstring` raises `ParserError("Document is empty")` before the
loop's `try`/`except`, so `process_article_html` itself raises and the
claim's "the function itself never raises" — quantified over every input
HTML string — is false. -/
theorem claim3_counterexample :
    ScrapeAbante.process_article_html (fun _ => []) "u1" ""
      = .error (PyError.parserError "Document is empty") := rfl

/-- C3 (amended): for every input HTML string the initial `html.fromstring`
parse accepts, `process_article_html` returns (without raising) one article
per matched `elementor-post` article element from which extraction
succeeds, with the url taken from the first thumbnail link's `href`, the
title from the stripped text of the first title link, and the image source
from the first `img`'s `src`; an element on which any step fails is
skipped without aborting the others, and the extraction loop is a total
function; the function as a whole, however, can raise: on an empty (or
whitespace-only) input string `html.fromstring` — called outside the
loop's `try`/`except` — raises `ParserError("Document is empty")`, which
propagates to the caller. -/
theorem claim3_process_article_html
    (parse : String → List ScrapeAbante.PostElem) (gid s : String)
    (pre post : List ScrapeAbante.PostElem) (e : ScrapeAbante.PostElem) :
    (s.toList.all isPySpace = true →
       ScrapeAbante.process_article_html parse gid s
         = .error (PyError.parserError "Document is empty"))
    ∧ (s.toList.all isPySpace = false →
       ScrapeAbante.process_article_html parse gid s
         = .ok (ScrapeAbante.process_article_loop gid (parse s)))
    ∧ (ScrapeAbante.extract_article gid e = none →
       ScrapeAbante.process_article_loop gid (pre ++ e :: post)
         = ScrapeAbante.process_article_loop gid (pre ++ post))
    ∧ (∀ a img, ScrapeAbante.extract_article gid e = some (a, img) →
       ScrapeAbante.process_article_loop gid (pre ++ e :: post)
         = ScrapeAbante.process_article_loop gid pre
             ++ (a, img) :: ScrapeAbante.process_article_loop gid post
       ∧ e.thumbHrefs.head? = some a.url
       ∧ (∃ tt, e.titleTexts.head? = some tt ∧ a.title = pyStripStr tt)
       ∧ e.imgSrcs.head? = some img) := by
  refine ⟨?_, ?_, ?_, ?_⟩
  · intro h
    unfold ScrapeAbante.process_article_html ScrapeAbante.html_fromstring
    rw [if_pos h]
  · intro h
    unfold ScrapeAbante.process_article_html ScrapeAbante.html_fromstring
    rw [if_neg (by rw [h]; exact Bool.false_ne_true)]
  · intro h
    simp [ScrapeAbante.process_article_loop, List.filterMap_append,
      List.filterMap_cons, h]
  · intro a img h
    refine ⟨?_, ?_⟩
    · simp [ScrapeAbante.process_article_loop, List.filterMap_append,
        List.filterMap_cons, h]
    · cases h1 : e.thumbHrefs.head? with
      | none => simp [ScrapeAbante.extract_article, h1] at h
      | some href =>
        cases h2 : e.titleTexts.head? with
        | none => simp [ScrapeAbante.extract_article, h1, h2] at h
        | some tt =>
          cases h3 : e.imgSrcs.head? with
          | none => simp [ScrapeAbante.extract_article, h1, h2, h3] at h
          | some src =>
            simp only [ScrapeAbante.extract_article, h1, h2, h3] at h
            cases hv : Models.Article.validate
                { title := some (pyStripStr tt), url := href,
                  s3_img := none } gid with
            | error err =>
                rw [hv] at h
                exact Option.noConfusion h
            | ok art =>
                rw [hv] at h
                obtain ⟨ha, himg⟩ : art = a ∧ src = img := by
                  injection h with h'
                  injection h' with ha himg
                  exact ⟨ha, himg⟩
                subst ha
                subst himg
                obtain ⟨hf1, hf2, _⟩ :=
                  Models.Article.validate_ok _ gid art hv
                refine ⟨?_, ⟨tt, rfl, ?_⟩, rfl⟩
                · exact congrArg some ((show art.url = href from hf2).symm)
                · have h5 : some (pyStripStr tt) = some art.title := hf1
                  injection h5 with h5
                  exact h5.symm

/-- Witness for C3 at a concrete one-element page: the parse is accepted,
the function returns without raising, and the element is extracted into an
article carrying its href, stripped title and image source. -/
theorem claim3_witness :
    ScrapeAbante.process_article_html
        (fun _ => [⟨[some "https://www.abante.com.ph/a/"], [" Breaking News "],
                    [some "https://img.example.com/a.jpg"]⟩]) "u1"
        "<html><article class=\"elementor-post\"></article></html>"
      = .ok [({ title := "Breaking News", author := none, content := none,
                summary := none, tags := [],
                url := some "https://www.abante.com.ph/a/", s3_img := none,
                published_at := none, id := "u1" },
              some "https://img.example.com/a.jpg")] :=
  have h2 := (claim3_process_article_html
      (fun _ => [⟨[some "https://www.abante.com.ph/a/"], [" Breaking News "],
                  [some "https://img.example.com/a.jpg"]⟩]) "u1"
      "<html><article class=\"elementor-post\"></article></html>" [] []
      ⟨[some "https://www.abante.com.ph/a/"], [" Breaking News "],
       [some "https://img.example.com/a.jpg"]⟩).2.1 (by decide)
  have h4 := ((claim3_process_article_html
      (fun _ => [⟨[some "https://www.abante.com.ph/a/"], [" Breaking News "],
                  [some "https://img.example.com/a.jpg"]⟩]) "u1"
      "<html><article class=\"elementor-post\"></article></html>" [] []
      ⟨[some "https://www.abante.com.ph/a/"], [" Breaking News "],
       [some "https://img.example.com/a.jpg"]⟩).2.2.2
    { title := "Breaking News", author := none, content := none,
      summary := none, tags := [], url := some "https://www.abante.com.ph/a/",
      s3_img := none, published_at := none, id := "u1" }
    (some "https://img.example.com/a.jpg") (by decide)).1
  h2.trans (congrArg Except.ok h4)

/-- C9 counterexample: the single left-to-right substitution pass can splice
a new occurrence out of the fragments surrounding a removed match — on a
page whose paragraph text is `ADVERTADVERTISEMENTISEMENT`, the returned
content is exactly `ADVERTISEMENT`, so the claimed postcondition that the
content never contains `ADVERTISEMENT` (case-insensitively) is false. -/
theorem claim9_counterexample :
    FillMissing.scrapedContent ["ADVERTADVERTISEMENTISEMENT".toList]
      = some ("ADVERTISEMENT".toList)
    ∧ hasSubCI FillMissing.advert ("ADVERTISEMENT".toList) = true :=
  ⟨by decide, by decide⟩

/-- C9 (amended): whenever `scrape_missing_info` returns a non-`None`
content string, that string contains no two consecutive newline characters;
and it contains no case-insensitive occurrence of `ADVERTISEMENT` provided
the joined paragraph text contained none — the single left-to-right
substitution pass removes matches without re-scanning, so deleting a match
can splice surrounding fragments into a new occurrence and the
`ADVERTISEMENT`-freedom is not guaranteed for arbitrary inputs. -/
theorem claim9_content_cleanup (paras : List (List Char)) (c : List Char)
    (h : FillMissing.scrapedContent paras = some c) :
    noNN c = true
    ∧ (hasSubCI FillMissing.advert (FillMissing.rawContent paras) = false →
       hasSubCI FillMissing.advert c = false) := by
  have hc : c = FillMissing.cleanedContent (FillMissing.rawContent paras) := by
    simp only [FillMissing.scrapedContent] at h
    by_cases he :
        (FillMissing.cleanedContent (FillMissing.rawContent paras)).isEmpty = true
    · rw [if_pos he] at h
      exact Option.noConfusion h
    · rw [if_neg he] at h
      injection h with h
      exact h.symm
  subst hc
  constructor
  · have h1 : noNN (FillMissing.collapseNL
        (FillMissing.subAdvert (FillMissing.rawContent paras))) = true :=
      FillMissing.noNN_collapseNLF _ _ (Nat.le_refl _)
    obtain ⟨u, v, huv⟩ := pyStrip_middle (FillMissing.collapseNL
      (FillMissing.subAdvert (FillMissing.rawContent paras)))
    rw [huv] at h1
    rw [List.append_assoc] at h1
    have h2 := noNN_append_right u _ h1
    exact noNN_append_left _ v h2
  · intro hraw
    have hsub : FillMissing.subAdvert (FillMissing.rawContent paras)
        = FillMissing.rawContent paras :=
      FillMissing.subAdvertF_id_of_no_advert _ _ hraw
    cases hcc : hasSubCI FillMissing.advert
        (FillMissing.cleanedContent (FillMissing.rawContent paras)) with
    | false => rfl
    | true =>
        exfalso
        obtain ⟨u, v, huv⟩ := pyStrip_middle (FillMissing.collapseNL
          (FillMissing.subAdvert (FillMissing.rawContent paras)))
        have hmid : hasSubCI FillMissing.advert (FillMissing.collapseNL
            (FillMissing.subAdvert (FillMissing.rawContent paras))) = true := by
          rw [huv]
          exact hasSubCI_middle FillMissing.advert u _ v hcc
        rw [hsub] at hmid
        have hin := FillMissing.hasSubCI_collapseNLF
          (FillMissing.rawContent paras).length FillMissing.advert
          (FillMissing.rawContent paras) (by decide) (Nat.le_refl _) hmid
        rw [hraw] at hin
        exact Bool.noConfusion hin

/-- Witness for C9 at a concrete two-paragraph advertisement-free page. -/
theorem claim9_witness :
    noNN ("Good morning\nSecond paragraph".toList) = true
    ∧ hasSubCI FillMissing.advert ("Good morning\nSecond paragraph".toList)
        = false := by
  have h := claim9_content_cleanup
    ["Good morning".toList, "Second paragraph".toList]
    ("Good morning\nSecond paragraph".toList) (by decide)
  exact ⟨h.1, h.2 (by decide)⟩

/-- C2: once the page has loaded and the body element is present, the
scroll loop of `SeleniumScraper.scrape` terminates within the ten iterations
the 10-second `scroll_down_until` deadline allows: it exits with
`stabilized` at the first index where two consecutive
`document.body.scrollHeight` measurements are equal while every completed
iteration still passed the deadline guard, or exits with `timedOut` at a
guard time that reached the deadline with no two consecutive measurements
equal, whichever happens first; and the method returns the page source
string. -/
theorem claim2_selenium_scroll (env : NonAsync.ScrollEnv) (start : Nat)
    (ex : NonAsync.ScrollExit) (k t : Nat)
    (h : NonAsync.scrollLoop env (start + 10) start 0 (env.heights 0)
      = (ex, k, t)) :
    k ≤ 10
    ∧ (ex = .stabilized → 1 ≤ k ∧ env.heights k = env.heights (k - 1)
        ∧ (∀ i, 1 ≤ i → i < k → env.heights i ≠ env.heights (i - 1))
        ∧ NonAsync.timeAt env start (k - 1) < start + 10)
    ∧ (ex = .timedOut → start + 10 ≤ t
        ∧ (∀ i, 1 ≤ i → i ≤ k → env.heights i ≠ env.heights (i - 1)))
    ∧ NonAsync.SeleniumScraper.scrape env start = env.pageSource := by
  have hrun : NonAsync.scrollLoopF env (start + 10) (start + 10 - start)
      (NonAsync.timeAt env start 0) 0 (env.heights 0) = (ex, k, t) := h
  have hspec := NonAsync.scrollLoopF_spec env (start + 10) start
    (start + 10 - start) 0 (Nat.le_refl _) ex k t hrun
  obtain ⟨hjk, htf, hguard, hstab, htime⟩ := hspec
  refine ⟨?_, ?_, ?_, rfl⟩
  · cases ex with
    | stabilized =>
        obtain ⟨hlt, _, _⟩ := hstab rfl
        have hg := hguard (k - 1) (Nat.zero_le _) (by omega)
        have hge := NonAsync.timeAt_ge env start (k - 1)
        omega
    | timedOut =>
        by_cases hk : k = 0
        · omega
        · have hg := hguard (k - 1) (Nat.zero_le _) (by omega)
          have hge := NonAsync.timeAt_ge env start (k - 1)
          omega
  · intro hex
    obtain ⟨hlt, hkeq, hnone⟩ := hstab hex
    refine ⟨by omega, hkeq, ?_, ?_⟩
    · intro i h1 h2
      exact hnone i (by omega) h2
    · exact hguard (k - 1) (Nat.zero_le _) (by omega)
  · intro hex
    obtain ⟨hend, hnone⟩ := htime hex
    refine ⟨?_, ?_⟩
    · rw [htf]
      exact hend
    · intro i h1 h2
      exact hnone i (by omega) h2

/-- Witness for C2 at a page of constant height: the loop stabilizes after
one iteration and the method returns the page source. -/
theorem claim2_witness :
    NonAsync.SeleniumScraper.scrape
        ⟨fun _ => (100 : Int), fun _ => 0, "<html>page</html>"⟩ 0
      = "<html>page</html>" :=
  (claim2_selenium_scroll ⟨fun _ => (100 : Int), fun _ => 0, "<html>page</html>"⟩
    0 NonAsync.ScrollExit.stabilized 1 1 rfl).2.2.2
